import Mathlib

/-
Verification of the resilient distributed event-broker bridge
(`AsyncRedisEventBroker` in `src/apscheduler/eventbrokers/async_redis.py`).

The development shallowly embeds the broker's retry wrapper (`_retry`,
i.e. a tenacity `AsyncRetrying` with `retry_if_exception_type(ConnectionError)`,
`reraise=True`, an `after` report callback, and — as the claims fix it —
a `stop_after_attempt(N)` stop condition), the publish path (`publish`),
the listener loop (`_listen_messages`), and the lifecycle entry points
(`start` / `stop`).  External effects (transport outcomes, concurrent
`stop()` requests) are passed in as explicit schedules; mutable broker
state is threaded as an explicit `BrokerState` record.
-/

namespace Apsched

/-- Errors raised by the transport.  `connectionError` embeds
`redis.ConnectionError` (the transient-connectivity class the retry
predicate accepts); `otherError` is any other exception. -/
inductive Err where
  | connectionError (code : Nat)
  | otherError (code : Nat)
deriving DecidableEq

/-- The transient-connectivity predicate: embeds
`tenacity.retry_if_exception_type(ConnectionError)` from `_retry`. -/
def isTransient : Err → Bool
  | Err.connectionError _ => true
  | Err.otherError _ => false

/-- Outcome of a run of the retry wrapper: the wrapped operation's result,
or the error the wrapper raised to its caller. -/
inductive RetryOutcome (α : Type) where
  | ok (a : α)
  | raised (e : Err)
deriving DecidableEq

/-- Trace of one run of the retry wrapper: final outcome, number of
invocations of the wrapped operation, the failure reports emitted by the
`after` callback (attempt number and error, in order), and the final
effect state threaded through the operation. -/
structure RetryTrace (σ α : Type) where
  outcome : RetryOutcome α
  calls : Nat
  reports : List (Nat × Err)
  state : σ
deriving DecidableEq

/-- One step of tenacity's `AsyncRetrying` loop as configured by `_retry`
with `stop_after_attempt M`: run the operation at attempt number `n`
(threading effect state `s`); on success return the result; on a failure
the retry predicate rejects, re-raise at once (no report); on a transient
failure report it (`after` runs before the stop check), then stop and
re-raise (`reraise=True`) when `M ≤ n`, else retry at `n + 1`.  `fuel`
only bounds the recursion; `runRetry` supplies `fuel = M`, which the
invariant `fuel + n = M + 1` shows is never exhausted. -/
def retryFrom (M : Nat) (op : Nat → σ → σ × Except Err α) :
    Nat → Nat → Nat → List (Nat × Err) → σ → RetryTrace σ α
  | fuel, n, calls, reports, s =>
    match op n s with
    | (s', Except.ok a) => ⟨RetryOutcome.ok a, calls + 1, reports, s'⟩
    | (s', Except.error e) =>
      if isTransient e then
        if M ≤ n then ⟨RetryOutcome.raised e, calls + 1, reports ++ [(n, e)], s'⟩
        else
          match fuel with
          | 0 => ⟨RetryOutcome.raised e, calls + 1, reports ++ [(n, e)], s'⟩
          | fuel' + 1 =>
            retryFrom M op fuel' (n + 1) (calls + 1) (reports ++ [(n, e)]) s'
      else ⟨RetryOutcome.raised e, calls + 1, reports, s'⟩

/-- Run the retry wrapper from attempt 1 with an empty report log,
as `async for attempt in self._retry(): with attempt: ...` does. -/
def runRetry (M : Nat) (op : Nat → σ → σ × Except Err α) (s : σ) : RetryTrace σ α :=
  retryFrom M op M 1 0 [] s

/-- A domain event: an identifier plus an opaque payload, immutable once
handed to the bridge. -/
structure Event where
  id : Nat
  payload : List Nat
deriving DecidableEq

/-- The serializer collaborator (`Serializer.serialize`): a concrete
injective encoding of an event into bytes. -/
def serialize (e : Event) : List Nat :=
  e.id :: e.payload

/-- The serializer collaborator (`Serializer.deserialize`): inverse of
`serialize`; fails on bytes no event serializes to. -/
def deserialize : List Nat → Option Event
  | i :: p => some ⟨i, p⟩
  | [] => none

/-- Modelled from the spec: `DistributedEventBrokerMixin.generate_notification`
(eventbrokers/base.py, not under src/).  Encodes the event and tags the
notification with the stable broker-instance identifier `selfId` so a
receiver can recognize a self-originated notification. -/
def generate_notification (selfId : Nat) (e : Event) : List Nat :=
  selfId :: serialize e

/-- Modelled from the spec: `DistributedEventBrokerMixin.reconstitute_event`
(eventbrokers/base.py, not under src/).  Decodes notification bytes back
into an event; returns `none` when the bytes are malformed or when the
origin tag matches the local broker-instance identifier (self-echo
filtering), so the caller does not re-publish locally. -/
def reconstitute_event (selfId : Nat) : List Nat → Option Event
  | origin :: rest => if origin = selfId then none else deserialize rest
  | [] => none

/-- Observable broker state: the `_stopped` lifecycle flag (true from
construction), whether the pub/sub subscription handle is open, the
events delivered to the local bus by `publish_local`, and the listener
crashes reported via `self._logger.exception`. -/
structure BrokerState where
  stopped : Bool
  subscriptionOpen : Bool
  deliveries : List Event
  loggedCrashes : List Err
deriving DecidableEq

/-- State of a freshly constructed broker: `_stopped` defaults to true,
no subscription, nothing delivered, nothing logged. -/
def initialState : BrokerState :=
  { stopped := true, subscriptionOpen := false, deliveries := [], loggedCrashes := [] }

/-- `AsyncRedisEventBroker.stop`: sets `_stopped` and delegates to
`super().stop(force=force)`.  The base class stop is modelled from the
spec: it awaits (or on `force` cancels) the listener task and changes no
observable field here; on a never-started broker it is a no-op and does
not error. -/
def stop (_force : Bool) (st : BrokerState) : BrokerState :=
  { st with stopped := true }

/-- Result of `AsyncRedisEventBroker.start`: the broker state afterwards,
the error re-raised to the caller (if any), and whether the listener task
was launched via `self._task_group.start_soon`. -/
structure StartTrace where
  state : BrokerState
  raised : Option Err
  listenerLaunched : Bool
deriving DecidableEq

/-- `AsyncRedisEventBroker.start`: `await super().start()` (modelled from
the spec: base-class startup of the local bus and task group, changing no
observable field here), create the pub/sub handle, subscribe to the
channel (its outcome is the parameter `subscribeResult`).  On subscription
failure: `await self.stop(force=True)` then re-raise, never launching the
listener.  On success: clear `_stopped` and launch the listener. -/
def start (subscribeResult : Except Err Unit) (st : BrokerState) : StartTrace :=
  match subscribeResult with
  | Except.error e =>
    { state := stop true st, raised := some e, listenerLaunched := false }
  | Except.ok _ =>
    { state := { st with stopped := false, subscriptionOpen := true },
      raised := none, listenerLaunched := true }

/-- The per-attempt transport operation of `publish`: each attempt pushes
the already-computed notification bytes to the channel (recorded by
appending to the pushed-payload log) and yields the transport's verdict
for that attempt (`behavior n`). -/
def pubOp (note : List Nat) (behavior : Nat → Except Err Unit) :
    Nat → List (List Nat) → List (List Nat) × Except Err Unit :=
  fun n pushes => (pushes ++ [note], behavior n)

/-- `AsyncRedisEventBroker.publish`: encode the event once into a
notification (`generate_notification`), then push it to the channel under
the retry wrapper.  Returns the (unchanged) broker state together with
the retry trace, whose effect state is the list of payloads pushed to the
transport, one per attempt. -/
def publish (selfId M : Nat) (behavior : Nat → Except Err Unit) (e : Event)
    (st : BrokerState) : BrokerState × RetryTrace (List (List Nat)) Unit :=
  (st, runRetry M (pubOp (generate_notification selfId e) behavior) [])

/-- What `pubsub.get_message` can yield once it returns: a message whose
`data` field is bytes, a message whose `data` is not bytes, or nothing
(`None`, i.e. the poll timeout elapsed). -/
inductive MsgData where
  | bytes (payload : List Nat)
  | nonBytes
deriving DecidableEq

/-- Outcome of one call to `pubsub.get_message`: a timeout (`None`), a
message, or a raised exception. -/
inductive RecvOutcome where
  | timeout
  | message (data : MsgData)
  | raise (e : Err)
deriving DecidableEq

/-- `pubsub.get_message(ignore_subscribe_messages=True, timeout=...)` as a
fallible operation: timeouts succeed with no message; exceptions are
errors for the retry wrapper. -/
def get_message : RecvOutcome → Except Err (Option MsgData)
  | RecvOutcome.timeout => Except.ok none
  | RecvOutcome.message d => Except.ok (some d)
  | RecvOutcome.raise e => Except.error e

/-- The receive operation run under the retry wrapper in the listener
loop, consuming the iteration's schedule `recv` of per-attempt outcomes
and counting transport receive calls in its effect state. -/
def recvOp (recv : Nat → RecvOutcome) : Nat → Nat → Nat × Except Err (Option MsgData) :=
  fun n k => (k + 1, get_message (recv n))

/-- One iteration of the `while not self._stopped` body of
`_listen_messages`: receive one message under the retry wrapper; if a
message with bytes data arrived, reconstitute it and, when an event comes
back, deliver it to the local bus (`publish_local`).  Any error escaping
the retry wrapper is logged (`_logger.exception`), the subscription is
closed (`pubsub.close()`), and the error is re-raised (returned as
`some e`). -/
def listenIteration (selfId M : Nat) (recv : Nat → RecvOutcome)
    (st : BrokerState) : BrokerState × Option Err :=
  match (runRetry M (recvOp recv) 0).outcome with
  | RetryOutcome.raised e =>
    ({ st with loggedCrashes := st.loggedCrashes ++ [e], subscriptionOpen := false },
      some e)
  | RetryOutcome.ok none => (st, none)
  | RetryOutcome.ok (some MsgData.nonBytes) => (st, none)
  | RetryOutcome.ok (some (MsgData.bytes payload)) =>
    match reconstitute_event selfId payload with
    | some ev => ({ st with deliveries := st.deliveries ++ [ev] }, none)
    | none => (st, none)

/-- How a run of `_listen_messages` ended: the loop condition observed the
stop flag, the listener crashed re-raising an error, or the modelling
fuel ran out (never reached in the runs the theorems consider). -/
inductive ListenerExit where
  | sawStopFlag
  | crashed (e : Err)
  | fuelExhausted
deriving DecidableEq

/-- `_listen_messages`: loop while `_stopped` is false.  `recv i n` is the
transport outcome of attempt `n` in iteration `i`; `stopReq i` says
whether a concurrent `stop()` has set the flag before iteration `i`'s
loop-condition check.  A crash ends the loop (the error propagates and
the task terminates, with no internal restart); observing the stop flag
ends it without touching the subscription. -/
def listenLoop (selfId M : Nat) (recv : Nat → Nat → RecvOutcome)
    (stopReq : Nat → Bool) : Nat → Nat → BrokerState → BrokerState × ListenerExit
  | 0, _, st => (st, ListenerExit.fuelExhausted)
  | fuel + 1, i, st =>
    let st1 := if stopReq i then { st with stopped := true } else st
    if st1.stopped then (st1, ListenerExit.sawStopFlag)
    else
      match listenIteration selfId M (recv i) st1 with
      | (st2, some e) => (st2, ListenerExit.crashed e)
      | (st2, none) => listenLoop selfId M recv stopReq fuel (i + 1) st2

/-- A broker state in which `start` has succeeded: flag cleared,
subscription open, nothing yet delivered or logged. -/
def startedState : BrokerState :=
  { stopped := false, subscriptionOpen := true, deliveries := [], loggedCrashes := [] }

/-- A receive schedule that always times out. -/
def recvTimeout : Nat → Nat → RecvOutcome :=
  fun _ _ => RecvOutcome.timeout

/-- A receive schedule that always raises a non-transient error. -/
def recvCrash : Nat → Nat → RecvOutcome :=
  fun _ _ => RecvOutcome.raise (Err.otherError 7)

/-- A stop-request schedule on which `stop()` is never called. -/
def noStop : Nat → Bool :=
  fun _ => false

/-- A transport behavior whose publish always fails with a connection
error. -/
def alwaysConnFail : Nat → Except Err Unit :=
  fun _ => Except.error (Err.connectionError 0)

/-- A transport behavior that fails with a connection error on attempt 1
and accepts the push on attempt 2. -/
def behaviorOkAt2 : Nat → Except Err Unit :=
  fun n => if n < 2 then Except.error (Err.connectionError 5) else Except.ok ()

/-- A receive schedule that times out in iteration 0 and raises a
non-transient error from iteration 1 on. -/
def recvTimeoutThenCrash : Nat → Nat → RecvOutcome :=
  fun i _ => if i = 0 then RecvOutcome.timeout else RecvOutcome.raise (Err.otherError 9)

/-- An operation that always fails with a non-transient error, counting
its invocations in its effect state. -/
def fatalOp : Nat → Nat → Nat × Except Err Unit :=
  fun _ k => (k + 1, Except.error (Err.otherError 3))

theorem retryFrom_ok {σ α : Type} {M : Nat} {op : Nat → σ → σ × Except Err α}
    {n : Nat} {s s' : σ} {a : α} (h : op n s = (s', Except.ok a))
    (fuel calls : Nat) (reports : List (Nat × Err)) :
    retryFrom M op fuel n calls reports s =
      ⟨RetryOutcome.ok a, calls + 1, reports, s'⟩ := by
  rw [retryFrom, h]

theorem retryFrom_fatal {σ α : Type} {M : Nat} {op : Nat → σ → σ × Except Err α}
    {n : Nat} {s s' : σ} {e : Err} (h : op n s = (s', Except.error e))
    (ht : isTransient e = false) (fuel calls : Nat) (reports : List (Nat × Err)) :
    retryFrom M op fuel n calls reports s =
      ⟨RetryOutcome.raised e, calls + 1, reports, s'⟩ := by
  rw [retryFrom, h]
  simp [ht]

theorem retryFrom_stop {σ α : Type} {M : Nat} {op : Nat → σ → σ × Except Err α}
    {n : Nat} {s s' : σ} {e : Err} (h : op n s = (s', Except.error e))
    (ht : isTransient e = true) (hM : M ≤ n)
    (fuel calls : Nat) (reports : List (Nat × Err)) :
    retryFrom M op fuel n calls reports s =
      ⟨RetryOutcome.raised e, calls + 1, reports ++ [(n, e)], s'⟩ := by
  rw [retryFrom, h]
  simp [ht, hM]

theorem retryFrom_step {σ α : Type} {M : Nat} {op : Nat → σ → σ × Except Err α}
    {n : Nat} {s s' : σ} {e : Err} (h : op n s = (s', Except.error e))
    (ht : isTransient e = true) (hM : ¬ M ≤ n)
    (fuel calls : Nat) (reports : List (Nat × Err)) :
    retryFrom M op (fuel + 1) n calls reports s =
      retryFrom M op fuel (n + 1) (calls + 1) (reports ++ [(n, e)]) s' := by
  rw [retryFrom, h]
  simp [ht, hM]

theorem retryFrom_exhaust {σ α : Type} {M : Nat} {op : Nat → σ → σ × Except Err α}
    {n : Nat} {s s' : σ} {e : Err} (h : op n s = (s', Except.error e))
    (ht : isTransient e = true) (hM : ¬ M ≤ n) (calls : Nat) (reports : List (Nat × Err)) :
    retryFrom M op 0 n calls reports s =
      ⟨RetryOutcome.raised e, calls + 1, reports ++ [(n, e)], s'⟩ := by
  rw [retryFrom, h]
  simp [ht, hM]

theorem retryFrom_allFail {note : List Nat} {c : Nat} (M : Nat) :
    ∀ fuel n calls : Nat, ∀ reports : List (Nat × Err), ∀ s : List (List Nat),
    fuel + n = M + 1 → 1 ≤ fuel →
    retryFrom M (pubOp note (fun _ => Except.error (Err.connectionError c)))
        fuel n calls reports s =
      { outcome := RetryOutcome.raised (Err.connectionError c)
        calls := calls + fuel
        reports := reports ++ (List.range fuel).map (fun j => (n + j, Err.connectionError c))
        state := s ++ List.replicate fuel note } := by
  intro fuel
  induction fuel with
  | zero => intro n calls reports s _ h1; omega
  | succ f ih =>
    intro n calls reports s h _
    have hop : pubOp note (fun _ => Except.error (Err.connectionError c)) n s =
        (s ++ [note], Except.error (Err.connectionError c)) := rfl
    by_cases hM : M ≤ n
    · have hf : f = 0 := by omega
      subst hf
      rw [retryFrom_stop hop rfl hM (0 + 1) calls reports]
      have h1 : List.range 1 = [0] := rfl
      simp [h1]
    · rw [retryFrom_step hop rfl hM f calls reports,
        ih (n + 1) (calls + 1) (reports ++ [(n, Err.connectionError c)])
          (s ++ [note]) (by omega) (by omega)]
      have hrange : (List.range (f + 1)).map (fun j => (n + j, Err.connectionError c)) =
          (n, Err.connectionError c) ::
            (List.range f).map (fun j => (n + 1 + j, Err.connectionError c)) := by
        rw [List.range_succ_eq_map, List.map_cons, List.map_map]
        refine congrArg₂ List.cons (by simp) (List.map_congr_left ?_)
        intro j _
        simp only [Function.comp_apply, Prod.mk.injEq]
        exact ⟨by omega, trivial⟩
      rw [RetryTrace.mk.injEq]
      refine ⟨rfl, by omega, ?_, ?_⟩
      · rw [List.append_assoc, hrange]
        simp
      · rw [List.append_assoc]
        simp [List.replicate_succ]

theorem retryFrom_succeedsAt {note : List Nat} {behavior : Nat → Except Err Unit} (M : Nat) :
    ∀ d fuel n calls : Nat, ∀ reports : List (Nat × Err), ∀ s : List (List Nat),
    fuel + n = M + 1 → n + d ≤ M →
    (∀ i, n ≤ i → i < n + d → ∃ c, behavior i = Except.error (Err.connectionError c)) →
    behavior (n + d) = Except.ok () →
    (retryFrom M (pubOp note behavior) fuel n calls reports s).outcome = RetryOutcome.ok () ∧
    (retryFrom M (pubOp note behavior) fuel n calls reports s).calls = calls + d + 1 ∧
    (retryFrom M (pubOp note behavior) fuel n calls reports s).state =
      s ++ List.replicate (d + 1) note := by
  intro d
  induction d with
  | zero =>
    intro fuel n calls reports s hfuel hle hfail hok
    have hok0 : behavior n = Except.ok () := hok
    have hop : pubOp note behavior n s = (s ++ [note], Except.ok ()) := by
      simp only [pubOp, hok0]
    rw [retryFrom_ok hop fuel calls reports]
    exact ⟨rfl, by simp, by simp⟩
  | succ d ih =>
    intro fuel n calls reports s hfuel hle hfail hok
    obtain ⟨c, hc⟩ := hfail n (le_refl n) (by omega)
    have hop : pubOp note behavior n s = (s ++ [note], Except.error (Err.connectionError c)) := by
      simp only [pubOp, hc]
    have hM : ¬ M ≤ n := by omega
    obtain ⟨f, rfl⟩ : ∃ f, fuel = f + 1 := ⟨fuel - 1, by omega⟩
    rw [retryFrom_step hop rfl hM f calls reports]
    have hok' : behavior (n + 1 + d) = Except.ok () := by
      rw [show n + 1 + d = n + (d + 1) by omega]
      exact hok
    have hrec := ih f (n + 1) (calls + 1) (reports ++ [(n, Err.connectionError c)])
      (s ++ [note]) (by omega) (by omega)
      (fun i h1 h2 => hfail i (by omega) (by omega)) hok'
    refine ⟨hrec.1, ?_, ?_⟩
    · rw [hrec.2.1]
      omega
    · rw [hrec.2.2, List.append_assoc]
      simp [List.replicate_succ]

theorem retryFrom_pushes {note : List Nat} {behavior : Nat → Except Err Unit} (M : Nat) :
    ∀ fuel n calls : Nat, ∀ reports : List (Nat × Err), ∀ s : List (List Nat),
    ∃ k, (retryFrom M (pubOp note behavior) fuel n calls reports s).calls = calls + (k + 1) ∧
      (retryFrom M (pubOp note behavior) fuel n calls reports s).state =
        s ++ List.replicate (k + 1) note := by
  intro fuel
  induction fuel with
  | zero =>
    intro n calls reports s
    cases hb : behavior n with
    | ok a =>
      cases a
      have hop : pubOp note behavior n s = (s ++ [note], Except.ok ()) := by
        simp only [pubOp, hb]
      rw [retryFrom_ok hop 0 calls reports]
      exact ⟨0, by simp, by simp⟩
    | error e =>
      have hop : pubOp note behavior n s = (s ++ [note], Except.error e) := by
        simp only [pubOp, hb]
      cases he : isTransient e with
      | false =>
        rw [retryFrom_fatal hop he 0 calls reports]
        exact ⟨0, by simp, by simp⟩
      | true =>
        by_cases hM : M ≤ n
        · rw [retryFrom_stop hop he hM 0 calls reports]
          exact ⟨0, by simp, by simp⟩
        · rw [retryFrom_exhaust hop he hM calls reports]
          exact ⟨0, by simp, by simp⟩
  | succ f ih =>
    intro n calls reports s
    cases hb : behavior n with
    | ok a =>
      cases a
      have hop : pubOp note behavior n s = (s ++ [note], Except.ok ()) := by
        simp only [pubOp, hb]
      rw [retryFrom_ok hop (f + 1) calls reports]
      exact ⟨0, by simp, by simp⟩
    | error e =>
      have hop : pubOp note behavior n s = (s ++ [note], Except.error e) := by
        simp only [pubOp, hb]
      cases he : isTransient e with
      | false =>
        rw [retryFrom_fatal hop he (f + 1) calls reports]
        exact ⟨0, by simp, by simp⟩
      | true =>
        by_cases hM : M ≤ n
        · rw [retryFrom_stop hop he hM (f + 1) calls reports]
          exact ⟨0, by simp, by simp⟩
        · rw [retryFrom_step hop he hM f calls reports]
          obtain ⟨k, hk1, hk2⟩ := ih (n + 1) (calls + 1) (reports ++ [(n, e)]) (s ++ [note])
          refine ⟨k + 1, ?_, ?_⟩
          · rw [hk1]
            omega
          · rw [hk2, List.append_assoc]
            simp [List.replicate_succ]

theorem listenIteration_none (selfId M : Nat) (recv : Nat → RecvOutcome)
    (st st2 : BrokerState) (h : listenIteration selfId M recv st = (st2, none)) :
    st2.loggedCrashes = st.loggedCrashes ∧ st2.subscriptionOpen = st.subscriptionOpen ∧
      st2.stopped = st.stopped := by
  unfold listenIteration at h
  cases hO : (runRetry M (recvOp recv) 0).outcome with
  | raised e =>
    rw [hO] at h
    simp at h
  | ok m =>
    rw [hO] at h
    match m with
    | none =>
      simp at h
      subst h
      exact ⟨rfl, rfl, rfl⟩
    | some MsgData.nonBytes =>
      simp at h
      subst h
      exact ⟨rfl, rfl, rfl⟩
    | some (MsgData.bytes payload) =>
      cases hR : reconstitute_event selfId payload with
      | none =>
        simp [hR] at h
        subst h
        exact ⟨rfl, rfl, rfl⟩
      | some ev =>
        simp [hR] at h
        subst h
        exact ⟨rfl, rfl, rfl⟩

theorem listenIteration_crash (selfId M : Nat) (recv : Nat → RecvOutcome)
    (st st2 : BrokerState) (e : Err)
    (h : listenIteration selfId M recv st = (st2, some e)) :
    st2 = { st with loggedCrashes := st.loggedCrashes ++ [e], subscriptionOpen := false } := by
  unfold listenIteration at h
  cases hO : (runRetry M (recvOp recv) 0).outcome with
  | raised e' =>
    rw [hO] at h
    simp only [Prod.mk.injEq, Option.some.injEq] at h
    obtain ⟨h1, rfl⟩ := h
    exact h1.symm
  | ok m =>
    rw [hO] at h
    match m with
    | none => simp at h
    | some MsgData.nonBytes => simp at h
    | some (MsgData.bytes payload) =>
      cases hR : reconstitute_event selfId payload with
      | none => simp [hR] at h
      | some ev => simp [hR] at h

theorem listenLoop_crash (selfId M : Nat) (recv : Nat → Nat → RecvOutcome)
    (stopReq : Nat → Bool) :
    ∀ fuel i : Nat, ∀ st stF : BrokerState, ∀ e : Err,
    listenLoop selfId M recv stopReq fuel i st = (stF, ListenerExit.crashed e) →
    stF.subscriptionOpen = false ∧ stF.loggedCrashes = st.loggedCrashes ++ [e] ∧
      stF.stopped = false := by
  intro fuel
  induction fuel with
  | zero =>
    intro i st stF e h
    simp [listenLoop] at h
  | succ f ih =>
    intro i st stF e h
    rw [listenLoop] at h
    by_cases hreq : stopReq i
    · simp [hreq] at h
    · by_cases hstop : st.stopped
      · simp [hreq, hstop] at h
      · have hstop' : st.stopped = false := by simpa using hstop
        simp only [hreq, Bool.false_eq_true, if_false, hstop'] at h
        cases hit : listenIteration selfId M (recv i) st with
        | mk st2 o =>
          rw [hit] at h
          cases o with
          | some e' =>
            simp only [Prod.mk.injEq, ListenerExit.crashed.injEq] at h
            obtain ⟨h1, rfl⟩ := h
            have hcr := listenIteration_crash selfId M (recv i) st st2 e' hit
            rw [← h1, hcr]
            exact ⟨rfl, rfl, hstop'⟩
          | none =>
            simp only [] at h
            have hrec := ih (i + 1) st2 stF e h
            have hpres := listenIteration_none selfId M (recv i) st st2 hit
            refine ⟨hrec.1, ?_, hrec.2.2⟩
            rw [hrec.2.1, hpres.1]

/-- C1: decoding the bytes produced by encoding an event `e`
(`generate_notification` then `reconstitute_event`) yields an event equal
to `e`, except when the notification is recognized as originating from
the same broker instance, in which case decoding returns `none`; and a
listener iteration receiving a self-originated notification delivers
nothing to the local bus. -/
theorem codec_roundtrip_self_filter_c1 (sender receiver : Nat) (e : Event) :
    reconstitute_event receiver (generate_notification sender e) =
      (if sender = receiver then none else some e) ∧
    ∀ M : Nat, ∀ st : BrokerState,
      listenIteration sender M
        (fun _ => RecvOutcome.message (MsgData.bytes (generate_notification sender e))) st =
        (st, none) := by
  constructor
  · simp only [generate_notification, reconstitute_event, serialize, deserialize]
  · intro M st
    have hrun : runRetry M (recvOp (fun _ => RecvOutcome.message
        (MsgData.bytes (generate_notification sender e)))) 0 =
        ⟨RetryOutcome.ok (some (MsgData.bytes (generate_notification sender e))), 1, [], 1⟩ :=
      retryFrom_ok rfl M 0 []
    have hself : reconstitute_event sender (generate_notification sender e) = none := by
      simp [generate_notification, reconstitute_event]
    unfold listenIteration
    rw [hrun]
    simp [hself]

/-- C2 counterexample: with a transport that always fails with a
connection error and a stop condition of 2 max attempts, `publish` makes
2 transport calls but emits 2 failure reports, not `2 - 1 = 1` as the
claim states (the `after` callback also fires on the final failed attempt
before the error is re-raised). -/
theorem publish_reports_counterexample_c2 :
    (publish 0 2 alwaysConnFail ⟨1, [2]⟩ initialState).2.calls = 2 ∧
    ¬ (publish 0 2 alwaysConnFail ⟨1, [2]⟩ initialState).2.reports.length = 2 - 1 := by
  decide

/-- C2 (amended): with a stop condition of N max attempts (N ≥ 1) and a
transport whose publish always fails with a connection error,
`publish(event)` invokes the transport exactly N times, reports all N
failed attempts (with attempt number and error), then fails by re-raising
the last underlying error; the broker state is untouched. -/
theorem publish_exhausts_retries_c2 (N c selfId : Nat) (e : Event) (st : BrokerState)
    (hN : 1 ≤ N) :
    (publish selfId N (fun _ => Except.error (Err.connectionError c)) e st).2.outcome =
        RetryOutcome.raised (Err.connectionError c) ∧
    (publish selfId N (fun _ => Except.error (Err.connectionError c)) e st).2.calls = N ∧
    (publish selfId N (fun _ => Except.error (Err.connectionError c)) e st).2.reports =
        (List.range N).map (fun j => (1 + j, Err.connectionError c)) ∧
    (publish selfId N (fun _ => Except.error (Err.connectionError c)) e st).1 = st := by
  have h := @retryFrom_allFail (generate_notification selfId e) c N N 1 0 [] [] rfl hN
  simp only [publish, runRetry]
  rw [h]
  refine ⟨rfl, by simp, by simp, by trivial⟩

theorem publish_exhausts_retries_c2_witness :
    (publish 0 3 (fun _ => Except.error (Err.connectionError 1)) ⟨4, [5]⟩ initialState).2.outcome =
        RetryOutcome.raised (Err.connectionError 1) ∧
    (publish 0 3 (fun _ => Except.error (Err.connectionError 1)) ⟨4, [5]⟩ initialState).2.calls = 3 ∧
    (publish 0 3 (fun _ => Except.error (Err.connectionError 1)) ⟨4, [5]⟩ initialState).2.reports =
        (List.range 3).map (fun j => (1 + j, Err.connectionError 1)) ∧
    (publish 0 3 (fun _ => Except.error (Err.connectionError 1)) ⟨4, [5]⟩ initialState).1 =
        initialState :=
  publish_exhausts_retries_c2 3 1 0 ⟨4, [5]⟩ initialState (by decide)

/-- C3: if the operation run under the retry wrapper fails with an error
the transient-connectivity predicate rejects, that error propagates to
the wrapper's caller immediately: exactly the one failing invocation is
made, no failure report is emitted, and the error is raised as is. -/
theorem retry_fatal_propagates_c3 {σ α : Type} (M : Nat)
    (op : Nat → σ → σ × Except Err α) (fuel n calls : Nat)
    (reports : List (Nat × Err)) (s s' : σ) (e : Err)
    (hop : op n s = (s', Except.error e)) (ht : isTransient e = false) :
    retryFrom M op fuel n calls reports s =
      ⟨RetryOutcome.raised e, calls + 1, reports, s'⟩ :=
  retryFrom_fatal hop ht fuel calls reports

theorem retry_fatal_propagates_c3_witness :
    retryFrom 5 fatalOp 5 1 0 [] 0 =
      ⟨RetryOutcome.raised (Err.otherError 3), 1, [], 1⟩ :=
  retry_fatal_propagates_c3 5 fatalOp 5 1 0 [] 0 1 (Err.otherError 3) rfl rfl

/-- C4: if subscribing to the shared channel fails during `start`, the
broker performs a forced stop and re-raises the subscription error: the
resulting state has the stop flag set and no listener task has been
launched. -/
theorem start_subscribe_failure_c4 (e : Err) (st : BrokerState) :
    (start (Except.error e) st).state.stopped = true ∧
    (start (Except.error e) st).raised = some e ∧
    (start (Except.error e) st).listenerLaunched = false :=
  ⟨rfl, rfl, rfl⟩

/-- C5: whenever a run of the listener loop terminates by an error
escaping the retry wrapper (`ListenerExit.crashed`), the subscription has
been closed and the error has been reported, and the loop performed no
internal restart (the crash ends the run). -/
theorem listener_crash_cleanup_c5 (selfId M : Nat) (recv : Nat → Nat → RecvOutcome)
    (stopReq : Nat → Bool) (fuel i : Nat) (st stF : BrokerState) (e : Err)
    (h : listenLoop selfId M recv stopReq fuel i st = (stF, ListenerExit.crashed e)) :
    stF.subscriptionOpen = false ∧ stF.loggedCrashes = st.loggedCrashes ++ [e] :=
  ⟨(listenLoop_crash selfId M recv stopReq fuel i st stF e h).1,
    (listenLoop_crash selfId M recv stopReq fuel i st stF e h).2.1⟩

theorem listener_crash_cleanup_c5_witness :
    ({ stopped := false, subscriptionOpen := false, deliveries := [],
        loggedCrashes := [Err.otherError 7] } : BrokerState).subscriptionOpen = false ∧
    ({ stopped := false, subscriptionOpen := false, deliveries := [],
        loggedCrashes := [Err.otherError 7] } : BrokerState).loggedCrashes =
      startedState.loggedCrashes ++ [Err.otherError 7] :=
  listener_crash_cleanup_c5 0 1 recvCrash noStop 1 0 startedState _ (Err.otherError 7) rfl

/-- C6 counterexample: the listener run below terminates on an
unrecoverable error (`ListenerExit.crashed`), yet the broker's lifecycle
flag still reads `false` (not stopped), contradicting the claim that the
flag reads stopped after such a termination. -/
theorem listener_crash_flag_counterexample_c6 :
    (listenLoop 0 1 recvCrash noStop 1 0 startedState).2 =
      ListenerExit.crashed (Err.otherError 7) ∧
    (listenLoop 0 1 recvCrash noStop 1 0 startedState).1.stopped = false :=
  ⟨rfl, rfl⟩

/-- C6 (amended): an unrecoverable listener error releases the
subscription and surfaces the error, but the listener itself never sets
the lifecycle flag: after the listener terminates on such an error the
flag still reads not-stopped — it only reads stopped once `stop()` is
called. -/
theorem listener_crash_flag_c6 (selfId M : Nat) (recv : Nat → Nat → RecvOutcome)
    (stopReq : Nat → Bool) (fuel i : Nat) (st stF : BrokerState) (e : Err)
    (h : listenLoop selfId M recv stopReq fuel i st = (stF, ListenerExit.crashed e)) :
    stF.subscriptionOpen = false ∧ stF.stopped = false :=
  ⟨(listenLoop_crash selfId M recv stopReq fuel i st stF e h).1,
    (listenLoop_crash selfId M recv stopReq fuel i st stF e h).2.2⟩

theorem listener_crash_flag_c6_witness :
    ({ stopped := false, subscriptionOpen := false, deliveries := [],
        loggedCrashes := [Err.otherError 9] } : BrokerState).subscriptionOpen = false ∧
    ({ stopped := false, subscriptionOpen := false, deliveries := [],
        loggedCrashes := [Err.otherError 9] } : BrokerState).stopped = false :=
  listener_crash_flag_c6 0 1 recvTimeoutThenCrash noStop 2 0 startedState _ (Err.otherError 9) rfl

/-- C7: if the transport push fails with connection errors on attempts
1..k-1 and succeeds on attempt k ≤ N, `publish(event)` returns normally,
makes exactly k transport calls (so exactly one successful one), and
leaves the broker state — in particular the local-bus deliveries —
untouched. -/
theorem publish_succeeds_at_k_c7 (N k selfId : Nat) (behavior : Nat → Except Err Unit)
    (e : Event) (st : BrokerState) (hk1 : 1 ≤ k) (hkN : k ≤ N)
    (hfail : ∀ i, 1 ≤ i → i < k → ∃ c, behavior i = Except.error (Err.connectionError c))
    (hok : behavior k = Except.ok ()) :
    (publish selfId N behavior e st).2.outcome = RetryOutcome.ok () ∧
    (publish selfId N behavior e st).2.calls = k ∧
    (publish selfId N behavior e st).1 = st := by
  obtain ⟨d, rfl⟩ : ∃ d, k = d + 1 := ⟨k - 1, by omega⟩
  have hok' : behavior (1 + d) = Except.ok () := by
    rw [Nat.add_comm]
    exact hok
  have h := @retryFrom_succeedsAt (generate_notification selfId e) behavior N d N 1 0 [] []
    rfl (by omega) (fun i h1 h2 => hfail i h1 (by omega)) hok'
  simp only [publish, runRetry]
  refine ⟨h.1, ?_, by trivial⟩
  rw [h.2.1]
  omega

theorem publish_succeeds_at_k_c7_witness :
    (publish 0 3 behaviorOkAt2 ⟨1, []⟩ startedState).2.outcome = RetryOutcome.ok () ∧
    (publish 0 3 behaviorOkAt2 ⟨1, []⟩ startedState).2.calls = 2 ∧
    (publish 0 3 behaviorOkAt2 ⟨1, []⟩ startedState).1 = startedState :=
  publish_succeeds_at_k_c7 3 2 0 behaviorOkAt2 ⟨1, []⟩ startedState (by decide) (by decide)
    (fun i h1 h2 => by
      have hi : i = 1 := by omega
      subst hi
      exact ⟨5, rfl⟩)
    rfl

/-- C8: in a listener-loop iteration, a receive that times out with no
message is not an error — the iteration changes nothing and the loop
re-checks the stop flag and polls again; and a local-bus delivery happens
in an iteration exactly when a bytes message is received and decoding it
yields an event. -/
theorem listener_timeout_poll_c8 (selfId M : Nat) (recv : Nat → Nat → RecvOutcome)
    (stopReq : Nat → Bool) (fuel i : Nat) (st : BrokerState) :
    ((runRetry M (recvOp (recv i)) 0).outcome = RetryOutcome.ok none →
      listenIteration selfId M (recv i) st = (st, none)) ∧
    ((∃ ev, (listenIteration selfId M (recv i) st).1.deliveries = st.deliveries ++ [ev]) ↔
      ∃ p ev, (runRetry M (recvOp (recv i)) 0).outcome =
          RetryOutcome.ok (some (MsgData.bytes p)) ∧
        reconstitute_event selfId p = some ev) ∧
    (st.stopped = false → stopReq i = false →
      (listenIteration selfId M (recv i) st).2 = none →
      listenLoop selfId M recv stopReq (fuel + 1) i st =
        listenLoop selfId M recv stopReq fuel (i + 1)
          (listenIteration selfId M (recv i) st).1) := by
  refine ⟨?_, ?_, ?_⟩
  · intro h
    unfold listenIteration
    rw [h]
  · cases hO : (runRetry M (recvOp (recv i)) 0).outcome with
    | raised e =>
      unfold listenIteration
      rw [hO]
      simp
    | ok m =>
      unfold listenIteration
      rw [hO]
      match m with
      | none => simp
      | some MsgData.nonBytes => simp
      | some (MsgData.bytes payload) =>
        cases hR : reconstitute_event selfId payload with
        | none => simp [hR]
        | some ev => simp [hR]
  · intro h1 h2 h3
    cases hit : listenIteration selfId M (recv i) st with
    | mk st2 o =>
      rw [hit] at h3
      simp at h3
      subst h3
      rw [listenLoop]
      simp [h1, h2, hit]

theorem listener_timeout_poll_c8_witness :
    listenIteration 0 1 (recvTimeout 0) startedState = (startedState, none) :=
  (listener_timeout_poll_c8 0 1 recvTimeout (fun _ => false) 1 0 startedState).1 (by decide)

/-- C9: calling `stop` (with or without force) on a never-started broker
raises no error and leaves the state unchanged: the flag was already true
from construction and no other field is modified. -/
theorem stop_before_start_c9 (force : Bool) : stop force initialState = initialState :=
  rfl

/-- C10: `publish` encodes the event exactly once, before the first
transport attempt: every payload pushed to the channel across all retry
attempts is byte-identical to the single notification produced by
`generate_notification`, however many attempts the policy performs. -/
theorem publish_single_encoding_c10 (selfId M : Nat) (behavior : Nat → Except Err Unit)
    (e : Event) (st : BrokerState) :
    (publish selfId M behavior e st).2.state =
      List.replicate ((publish selfId M behavior e st).2.calls)
        (generate_notification selfId e) := by
  obtain ⟨k, hk1, hk2⟩ :=
    @retryFrom_pushes (generate_notification selfId e) behavior M M 1 0 [] []
  simp only [publish, runRetry]
  rw [hk2, hk1]
  simp

end Apsched
